import Mathlib

/-!
Shallow embedding of the `RepositoryClient` facade of brev/nupic.tools
(`src/unnamed/part_000`) and the issue-comment webhook handler
(`src/webhooks/event-handlers/issue_comment.js`).

Asynchronous completion-callback code is embedded as pure functions:
the responses of the transport adapters (GitHub / Travis HTTP clients)
become explicit parameters, a callback invocation `callback(err, data)`
becomes an `Except` result, and the remote webhook configuration becomes
an explicit `ProviderState` threaded through `confirmWebhookExists`.
-/

namespace NupicTools

/-- Error type for transport / provider failures delivered through a
completion callback (`callback(err)`). The payload is the message. -/
abbrev Err := String

deriving instance DecidableEq for Except

/-! ### `arraysMatch` (part_000 lines 8-11)

```js
function arraysMatch(left, right) {
    var sameValues = _.intersection(left, right);
    return sameValues.length == left.length && sameValues.length == right.length;
}
```

`_.intersection(left, right)` (underscore.js) walks `left` in order,
skips values already collected, and keeps a value iff it also occurs in
`right`; the result is therefore the duplicate-free list of shared
values, ordered by first occurrence in `left`. `distinctFilter` embeds
the "skip values already collected" accumulator. -/

/-- Underscore's duplicate-skipping accumulator: keep each element of the
list not already in `seen`, in order, threading the seen set. -/
def distinctFilter [DecidableEq α] (seen : List α) : List α → List α
  | [] => []
  | x :: xs => if x ∈ seen then distinctFilter seen xs
               else x :: distinctFilter (x :: seen) xs

/-- `_.intersection(left, right)`: duplicate-free list of the values of
`left` that also occur in `right`, in order of first occurrence. -/
def intersection [DecidableEq α] (left right : List α) : List α :=
  distinctFilter [] (left.filter (fun x => decide (x ∈ right)))

/-- `arraysMatch(left, right)` from part_000: the number of distinct
shared values must equal both lengths. -/
def arraysMatch [DecidableEq α] (left right : List α) : Bool :=
  let sameValues := intersection left right
  sameValues.length == left.length && sameValues.length == right.length

/-! ### Webhook reconciliation state (part_000 lines 132-190) -/

/-- A provider-side webhook: provider-assigned id, optional `config.url`
(the JS guard `hook.config && url == hook.config.url` treats a hook with
no config as non-matching), and its subscribed event names. -/
structure Hook where
  id : Nat
  configUrl : Option String
  events : List String
deriving DecidableEq, Repr

/-- The remote webhook configuration of the repository, together with
the id the provider will assign to the next created hook. -/
structure ProviderState where
  hooks : List Hook
  nextId : Nat
deriving DecidableEq, Repr

/-- The `hooks.forEach` loop of `confirmWebhookExists`: returns the
`found` flag (some URL-matching hook already has the wanted events) and
the ids queued for deletion (URL-matching hooks whose events do not
match), in traversal order. -/
def scanHooks (url : String) (events : List String) : List Hook → Bool × List Nat
  | [] => (false, [])
  | h :: hs =>
    let rest := scanHooks url events hs
    if h.configUrl == some url then
      if arraysMatch h.events events then (true, rest.2)
      else (rest.1, h.id :: rest.2)
    else rest

/-- `confirmWebhookExists(url, events, callback)` (part_000 132-190).
`listErr` makes the initial `getHooks` fail, `delFails id` makes the
queued `deleteHook` of hook `id` fail, `createErr` makes `createHook`
fail. Returns the callback outcome and the resulting provider state.
`async.parallel` starts every queued deletion; on a failure the error is
reported while the non-failing deletions still complete, so the failure
branch keeps exactly the hooks whose deletion was not queued or failed.
Webhook ids are provider-assigned identifiers, so `deleteHook(id)`
removes precisely the hooks bearing that id. -/
def confirmWebhookExists (listErr : Bool) (delFails : Nat → Bool)
    (createErr : Bool) (url : String) (events : List String)
    (st : ProviderState) : Except Err Unit × ProviderState :=
  if listErr then (Except.error "getHooks failed", st)
  else
    let scan := scanHooks url events st.hooks
    let found := scan.1
    let removeIds := scan.2
    if removeIds.any delFails then
      (Except.error "deleteHook failed",
       ⟨st.hooks.filter (fun h => !(removeIds.contains h.id && !delFails h.id)),
        st.nextId⟩)
    else
      let remaining := st.hooks.filter (fun h => !(removeIds.contains h.id))
      if found then (Except.ok (), ⟨remaining, st.nextId⟩)
      else if createErr then
        (Except.error "createHook failed", ⟨remaining, st.nextId⟩)
      else
        (Except.ok (),
         ⟨remaining ++ [⟨st.nextId, some url, events⟩], st.nextId + 1⟩)

/-- Number of webhooks of the state whose `config.url` is `url`. -/
def countUrl (url : String) (st : ProviderState) : Nat :=
  (st.hooks.filter (fun h => h.configUrl == some url)).length

/-! ### Pagination (part_000 lines 79-105 and 214-228)

```js
RepositoryClient.prototype._getRemainingPages = function(lastData, allDataOld, callback) {
    var me = this, allData = [];
    if (allDataOld) { allData = allData.concat(allDataOld); }
    allData = allData.concat(lastData);
    me.github.getNextPage(lastData, function(error, newData){
        if (error) { callback(null, allData); }
        else { me._getRemainingPages(newData, allData, callback) }
    });
}
```

The successive outcomes of `github.getNextPage` are embedded as the list
`resps`; an `Except.error` entry is a `getNextPage` error (end of pages
or transport failure — the code cannot tell them apart), an exhausted
list also ends the pagination. -/

/-- `_getRemainingPages(lastData, allDataOld, callback)`: accumulate
pages until `getNextPage` reports an error, then deliver the accumulated
data successfully. -/
def getRemainingPages (resps : List (Except Err (List α)))
    (lastData allDataOld : List α) : List α :=
  let allData := allDataOld ++ lastData
  match resps with
  | [] => allData
  | Except.error _ :: _ => allData
  | Except.ok newData :: rest => getRemainingPages rest newData allData

/-- The pages actually returned by the successive `getNextPage` calls
before the pagination terminates: the longest prefix of successful
responses. -/
def okPrefix : List (Except Err (List α)) → List (List α)
  | [] => []
  | Except.ok p :: rest => p :: okPrefix rest
  | Except.error _ :: _ => []

/-- `getContributors(callback)` (part_000 79-91): the first
`repos.getContributors` response is `firstResp`; on error the error is
delivered, otherwise `_getRemainingPages` aggregates with `allDataOld`
initially null. -/
def getContributors (firstResp : Except Err (List α))
    (pageResps : List (Except Err (List α))) : Except Err (List α) :=
  match firstResp with
  | Except.error e => Except.error e
  | Except.ok contributors => Except.ok (getRemainingPages pageResps contributors [])

/-- `getCommits(callback)` (part_000 93-105): same shape as
`getContributors` over `repos.getCommits`. -/
def getCommits (firstResp : Except Err (List α))
    (pageResps : List (Except Err (List α))) : Except Err (List α) :=
  match firstResp with
  | Except.error e => Except.error e
  | Except.ok commits => Except.ok (getRemainingPages pageResps commits [])

/-- `getAllOpenPullRequests(callback)` (part_000 71-77): the callback is
handed directly to `github.pullRequests.getAll`, so the transport's
single response is forwarded verbatim — no call to
`_getRemainingPages`. -/
def getAllOpenPullRequests (resp : Except Err (List α)) : Except Err (List α) :=
  resp

/-! ### `isBehindMaster` (part_000 lines 56-69) -/

/-- Relevant fragment of the `compareCommits` response. -/
structure CompareResult where
  behind_by : Nat
deriving DecidableEq, Repr

/-- `isBehindMaster(sha, callback)`: propagate a `compareCommits` error,
otherwise deliver `(data.behind_by > 0, data.behind_by)`. -/
def isBehindMaster (resp : Except Err CompareResult) :
    Except Err (Bool × Nat) :=
  match resp with
  | Except.error e => Except.error e
  | Except.ok data => Except.ok (decide (data.behind_by > 0), data.behind_by)

/-! ### `triggerTravisForPullRequest` (part_000 lines 192-212)

```js
travis.builds({ slug: ..., event_type: 'pull_request' }, function(err, response) {
    var pr = _.find(response.builds, function(build) {
        return build.pull_request_number == pull_request_number;
    });
    ...
```

`err` of the listing call is never inspected: when the listing fails the
response is absent and reading `response.builds` throws, so the callback
is never invoked — embedded as the `crash` outcome. -/

/-- A CI build as returned by `travis.builds`. -/
structure Build where
  id : Nat
  pull_request_number : Nat
deriving DecidableEq, Repr

/-- Relevant fragment of the `travis.builds.restart` response. -/
structure RestartResp where
  result : Bool
deriving DecidableEq, Repr

/-- Outcome of `triggerTravisForPullRequest`: either the callback is
invoked (`err` / `ok`), or the handler throws before any callback
(`crash`, from reading `.builds` of an absent response). -/
inductive TravisOutcome where
  | crash
  | err (e : Err)
  | ok (result : Bool)
deriving DecidableEq, Repr

/-- `true` iff the outcome was delivered through the completion
callback. -/
def TravisOutcome.isCallbackDelivered : TravisOutcome → Bool
  | crash => false
  | err _ => true
  | ok _ => true

/-- `triggerTravisForPullRequest(pull_request_number, callback)`:
`listResp` is the `travis.builds` response (`none` when the listing
errored and no response exists), `restart id` the `builds.restart`
response for build `id`. -/
def triggerTravisForPullRequest (listResp : Option (List Build))
    (restart : Nat → Except Err RestartResp) (n : Nat) : TravisOutcome :=
  match listResp with
  | none => TravisOutcome.crash
  | some builds =>
    match builds.find? (fun b => b.pull_request_number == n) with
    | none => TravisOutcome.err ("No pull request with #" ++ toString n)
    | some pr =>
      match restart pr.id with
      | Except.error e => TravisOutcome.err e
      | Except.ok restartResp => TravisOutcome.ok restartResp.result

/-! ### Issue-comment webhook handler
(`src/webhooks/event-handlers/issue_comment.js`) -/

/-- `payload.issue`: the issue number and the `pull_request` association
(absent on comments on plain issues). -/
structure IssuePayload where
  number : Nat
  pull_request : Option Unit
deriving DecidableEq, Repr

/-- An issue-comment event payload. -/
structure CommentPayload where
  issue : IssuePayload
deriving DecidableEq, Repr

/-- Relevant fragment of the commit returned by
`getLastCommitOnPullRequest`. -/
structure CommitInfo where
  sha : String
  committerLogin : String
deriving DecidableEq, Repr

/-- The remote calls the handler can issue, in order. -/
inductive RemoteCall where
  | getLastCommitOnPullRequest (prNumber : Nat)
  | performCompleteValidation (sha login : String) (recheck : Bool)
deriving DecidableEq, Repr

/-- Handler outcome: the callback's result, or a thrown exception before
any callback (the handler reads `commit.committer.login` without
checking `err`). -/
inductive HandlerOutcome where
  | done (r : Except Err Unit)
  | crash
deriving DecidableEq, Repr

/-- `issueCommentHandler(payload, config, repoClient, validators, callback)`:
comments on plain issues are a no-op success; otherwise the last commit
of the pull request is fetched and complete validation runs with the
re-check flag set, its result flowing to the callback. Returns the
outcome and the list of remote calls issued. -/
def issueCommentHandler (payload : CommentPayload)
    (commitResp : Except Err CommitInfo)
    (validationResult : Except Err Unit) :
    HandlerOutcome × List RemoteCall :=
  match payload.issue.pull_request with
  | none => (HandlerOutcome.done (Except.ok ()), [])
  | some _ =>
    match commitResp with
    | Except.error _ =>
      (HandlerOutcome.crash,
       [RemoteCall.getLastCommitOnPullRequest payload.issue.number])
    | Except.ok commit =>
      (HandlerOutcome.done validationResult,
       [RemoteCall.getLastCommitOnPullRequest payload.issue.number,
        RemoteCall.performCompleteValidation commit.sha commit.committerLogin true])

/-! ## Theory of `arraysMatch` -/

theorem mem_distinctFilter [DecidableEq α] {seen ys : List α} {a : α} :
    a ∈ distinctFilter seen ys ↔ a ∈ ys ∧ a ∉ seen := by
  induction ys generalizing seen with
  | nil => simp [distinctFilter]
  | cons x xs ih =>
    by_cases hx : x ∈ seen
    · rw [distinctFilter, if_pos hx, ih]
      constructor
      · rintro ⟨h1, h2⟩
        exact ⟨List.mem_cons_of_mem x h1, h2⟩
      · rintro ⟨h1, h2⟩
        rcases List.mem_cons.1 h1 with rfl | h1
        · exact absurd hx h2
        · exact ⟨h1, h2⟩
    · rw [distinctFilter, if_neg hx]
      constructor
      · intro hmem
        rcases List.mem_cons.1 hmem with rfl | hmem
        · exact ⟨List.mem_cons_self a xs, hx⟩
        · rcases ih.1 hmem with ⟨h1, h2⟩
          refine ⟨List.mem_cons_of_mem x h1, fun hs => h2 ?_⟩
          exact List.mem_cons_of_mem x hs
      · rintro ⟨h1, h2⟩
        rcases List.mem_cons.1 h1 with rfl | h1
        · exact List.mem_cons_self a _
        · by_cases hax : a = x
          · subst hax; exact List.mem_cons_self a _
          · refine List.mem_cons_of_mem x (ih.2 ⟨h1, fun hs => ?_⟩)
            rcases List.mem_cons.1 hs with h | h
            · exact hax h
            · exact h2 h

theorem distinctFilter_nodup [DecidableEq α] (seen ys : List α) :
    (distinctFilter seen ys).Nodup := by
  induction ys generalizing seen with
  | nil => simp [distinctFilter]
  | cons x xs ih =>
    by_cases hx : x ∈ seen
    · rw [distinctFilter, if_pos hx]; exact ih seen
    · rw [distinctFilter, if_neg hx]
      refine List.Nodup.cons (fun hmem => ?_) (ih (x :: seen))
      exact (mem_distinctFilter.1 hmem).2 (List.mem_cons_self x seen)

theorem toFinset_intersection [DecidableEq α] (l r : List α) :
    (intersection l r).toFinset = l.toFinset ∩ r.toFinset := by
  ext a
  simp [intersection, mem_distinctFilter, List.mem_filter]

theorem length_intersection [DecidableEq α] (l r : List α) :
    (intersection l r).length = (l.toFinset ∩ r.toFinset).card := by
  rw [← toFinset_intersection l r]
  exact (List.toFinset_card_of_nodup (distinctFilter_nodup _ _)).symm

theorem arraysMatch_eq_card [DecidableEq α] (l r : List α) :
    arraysMatch l r
      = ((l.toFinset ∩ r.toFinset).card == l.length
          && (l.toFinset ∩ r.toFinset).card == r.length) := by
  rw [arraysMatch, ← length_intersection l r]

/-- A list whose distinct elements are as many as its elements has no
duplicates. -/
theorem nodup_of_toFinset_card_eq_length [DecidableEq α] {l : List α}
    (h : l.toFinset.card = l.length) : l.Nodup := by
  rw [List.card_toFinset] at h
  exact List.dedup_eq_self.1 ((List.dedup_sublist l).eq_of_length h)

theorem arraysMatch_true_iff [DecidableEq α] {l r : List α} :
    arraysMatch l r = true ↔ l.Nodup ∧ r.Nodup ∧ l.toFinset = r.toFinset := by
  rw [arraysMatch_eq_card]
  simp only [Bool.and_eq_true, beq_iff_eq]
  constructor
  · rintro ⟨h1, h2⟩
    have hsl : (l.toFinset ∩ r.toFinset).card ≤ l.toFinset.card :=
      Finset.card_le_card Finset.inter_subset_left
    have hsr : (l.toFinset ∩ r.toFinset).card ≤ r.toFinset.card :=
      Finset.card_le_card Finset.inter_subset_right
    have hcl : l.toFinset.card = l.length :=
      le_antisymm (List.toFinset_card_le l) (h1 ▸ hsl)
    have hcr : r.toFinset.card = r.length :=
      le_antisymm (List.toFinset_card_le r) (h2 ▸ hsr)
    have hel : l.toFinset ∩ r.toFinset = l.toFinset :=
      Finset.eq_of_subset_of_card_le Finset.inter_subset_left
        (le_of_eq (hcl.trans h1.symm))
    have her : l.toFinset ∩ r.toFinset = r.toFinset :=
      Finset.eq_of_subset_of_card_le Finset.inter_subset_right
        (le_of_eq (hcr.trans h2.symm))
    exact ⟨nodup_of_toFinset_card_eq_length hcl,
      nodup_of_toFinset_card_eq_length hcr, hel.symm.trans her⟩
  · rintro ⟨hnl, hnr, heq⟩
    have hcl : l.toFinset.card = l.length := List.toFinset_card_of_nodup hnl
    have hcr : r.toFinset.card = r.length := List.toFinset_card_of_nodup hnr
    rw [heq, Finset.inter_self]
    exact ⟨by rw [← heq]; exact hcl, hcr⟩

theorem arraysMatch_comm [DecidableEq α] (l r : List α) :
    arraysMatch l r = arraysMatch r l := by
  rw [arraysMatch_eq_card, arraysMatch_eq_card, Finset.inter_comm,
    Bool.and_comm]

theorem arraysMatch_perm_left [DecidableEq α] {l l' : List α} (r : List α)
    (hp : l.Perm l') : arraysMatch l r = arraysMatch l' r := by
  rw [arraysMatch_eq_card, arraysMatch_eq_card,
    List.toFinset_eq_of_perm _ _ hp, hp.length_eq]

theorem arraysMatch_self_eq_false_of_dup [DecidableEq α] {xs : List α}
    (hnd : ¬xs.Nodup) : arraysMatch xs xs = false := by
  cases h : arraysMatch xs xs with
  | false => rfl
  | true => exact absurd (arraysMatch_true_iff.1 h).1 hnd

/-! ## Pagination lemmas -/

theorem getRemainingPages_eq {α : Type} (resps : List (Except Err (List α)))
    (lastData allDataOld : List α) :
    getRemainingPages resps lastData allDataOld
      = allDataOld ++ lastData ++ (okPrefix resps).flatten := by
  induction resps generalizing lastData allDataOld with
  | nil => simp [getRemainingPages, okPrefix]
  | cons r rest ih =>
    cases r with
    | error e => simp [getRemainingPages, okPrefix]
    | ok p =>
      rw [getRemainingPages, okPrefix, ih, List.flatten_cons]
      simp [List.append_assoc]

theorem okPrefix_map_ok_append {α : Type} (okPages : List (List α)) (e : Err)
    (rest : List (Except Err (List α))) :
    okPrefix (okPages.map Except.ok ++ Except.error e :: rest) = okPages := by
  induction okPages with
  | nil => simp [okPrefix]
  | cons p ps ih => simp [okPrefix, ih]

/-- **C5** For every paginated fetch (`getContributors`, `getCommits`),
the aggregate delivered at completion is the in-order concatenation of
the first page with the pages actually returned before termination, and
its length is the sum of the item counts of those pages. -/
theorem paginated_aggregation_concat_length {α : Type} (first : List α)
    (resps : List (Except Err (List α))) :
    getContributors (Except.ok first) resps
        = Except.ok (first ++ (okPrefix resps).flatten)
      ∧ getCommits (Except.ok first) resps
        = Except.ok (first ++ (okPrefix resps).flatten)
      ∧ (first ++ (okPrefix resps).flatten).length
        = first.length + ((okPrefix resps).map List.length).sum := by
  refine ⟨?_, ?_, ?_⟩
  · rw [getContributors, getRemainingPages_eq]; simp
  · rw [getCommits, getRemainingPages_eq]; simp
  · rw [List.length_append, List.length_flatten]

/-- **C2** For `getContributors` and `getCommits`, a transport error on
the very first page is delivered to the callback as a failure, while an
error of `getNextPage` on any later page ends the aggregation: the
callback receives the already-accumulated items successfully. -/
theorem pagination_error_after_first_page {α : Type} (e : Err)
    (first : List α) (okPages : List (List α))
    (rest resps : List (Except Err (List α))) :
    getContributors (Except.error e) resps = Except.error e
  ∧ getCommits (Except.error e) resps = Except.error e
  ∧ getContributors (Except.ok first)
      (okPages.map Except.ok ++ Except.error e :: rest)
      = Except.ok (first ++ okPages.flatten)
  ∧ getCommits (Except.ok first)
      (okPages.map Except.ok ++ Except.error e :: rest)
      = Except.ok (first ++ okPages.flatten) := by
  refine ⟨rfl, rfl, ?_, ?_⟩
  · rw [getContributors, getRemainingPages_eq, okPrefix_map_ok_append]; simp
  · rw [getCommits, getRemainingPages_eq, okPrefix_map_ok_append]; simp

/-- **C6 (counterexample)** `getAllOpenPullRequests` does not delegate
to the paginated aggregation: with a first page `[0]` and a further
page `[1]` available from the transport, the paginated fetch aggregates
`[0, 1]` while `getAllOpenPullRequests` delivers only `[0]`. -/
theorem getAllOpenPullRequests_not_paginated_cex :
    getAllOpenPullRequests (Except.ok [(0 : Nat)]) = Except.ok [0]
  ∧ getContributors (Except.ok [(0 : Nat)]) [Except.ok [1]]
      = Except.ok [0, 1]
  ∧ getAllOpenPullRequests (Except.ok [(0 : Nat)])
      ≠ getContributors (Except.ok [(0 : Nat)]) [Except.ok [1]] := by
  refine ⟨rfl, rfl, ?_⟩
  decide

/-- **C6 (amended)** `getAllOpenPullRequests()` forwards the transport's
single `list-pull-requests(state=open)` response to the callback
verbatim: the provider's transmitted items (or error) are delivered
as-is, with no locally enforced limit but also no multi-page
aggregation. -/
theorem getAllOpenPullRequests_passthrough {α : Type}
    (resp : Except Err (List α)) : getAllOpenPullRequests resp = resp :=
  rfl

/-! ## `isBehindMaster` -/

/-- **C8** `isBehindMaster(sha)` delivers, on success, the boolean
`behind_by > 0` together with the distance `behind_by`; in particular
`(false, 0)` when `sha` is the tip of the default branch
(`behind_by = 0`), and it propagates the transport error when the
comparison cannot be computed. -/
theorem isBehindMaster_spec (resp : Except Err CompareResult) :
    (∀ e, resp = Except.error e → isBehindMaster resp = Except.error e)
  ∧ (∀ d, resp = Except.ok d →
      isBehindMaster resp
        = Except.ok (decide (0 < d.behind_by), d.behind_by))
  ∧ (∀ d, resp = Except.ok d → d.behind_by = 0 →
      isBehindMaster resp = Except.ok (false, 0)) := by
  refine ⟨?_, ?_, ?_⟩
  · rintro e rfl; rfl
  · rintro d rfl; rfl
  · rintro d rfl h0
    rw [isBehindMaster, h0]
    rfl

/-- Witness for `isBehindMaster_spec` at the tip of the default
branch. -/
theorem isBehindMaster_spec_witness :
    isBehindMaster (Except.ok ⟨0⟩) = Except.ok (false, 0) :=
  (isBehindMaster_spec (Except.ok ⟨0⟩)).2.2 ⟨0⟩ rfl rfl

/-! ## `triggerTravisForPullRequest` -/

/-- **C4** With a successful build listing, `triggerTravisForPullRequest(n)`
fails with the not-found error when no listed build's pull-request
number is `n`; otherwise the first matching build — a member of the
list whose number is `n` — is the one restarted, and on restart success
its restart result is delivered. -/
theorem triggerTravis_found_or_not (builds : List Build)
    (restart : Nat → Except Err RestartResp) (n : Nat) :
    ((∀ b ∈ builds, b.pull_request_number ≠ n) →
      triggerTravisForPullRequest (some builds) restart n
        = TravisOutcome.err ("No pull request with #" ++ toString n))
  ∧ (∀ pr, builds.find? (fun b => b.pull_request_number == n) = some pr →
      pr ∈ builds ∧ pr.pull_request_number = n
      ∧ ∀ r, restart pr.id = Except.ok r →
          triggerTravisForPullRequest (some builds) restart n
            = TravisOutcome.ok r.result) := by
  constructor
  · intro hnone
    have hfind : builds.find? (fun b => b.pull_request_number == n) = none :=
      List.find?_eq_none.2 (fun b hb => by simpa using hnone b hb)
    rw [triggerTravisForPullRequest, hfind]
  · intro pr hfind
    refine ⟨List.mem_of_find?_eq_some hfind, by simpa using List.find?_some hfind,
      fun r hr => ?_⟩
    rw [triggerTravisForPullRequest]
    simp only [hfind]
    rw [hr]

/-- Witness for `triggerTravis_found_or_not`: one build for PR 3; the
lookup of PR 5 is a not-found error, the lookup of PR 3 restarts that
build. -/
theorem triggerTravis_found_or_not_witness :
    (∀ b ∈ [Build.mk 7 3], b.pull_request_number ≠ 5)
  ∧ triggerTravisForPullRequest (some [Build.mk 7 3])
      (fun _ => Except.ok ⟨true⟩) 5
      = TravisOutcome.err ("No pull request with #" ++ toString 5)
  ∧ [Build.mk 7 3].find? (fun b => b.pull_request_number == 3)
      = some (Build.mk 7 3)
  ∧ (fun _ : Nat => (Except.ok ⟨true⟩ : Except Err RestartResp))
      (Build.mk 7 3).id = Except.ok ⟨true⟩
  ∧ triggerTravisForPullRequest (some [Build.mk 7 3])
      (fun _ => Except.ok ⟨true⟩) 3
      = TravisOutcome.ok true :=
  ⟨by decide,
   (triggerTravis_found_or_not [Build.mk 7 3] (fun _ => Except.ok ⟨true⟩) 5).1
     (by decide),
   by decide,
   rfl,
   (((triggerTravis_found_or_not [Build.mk 7 3]
        (fun _ => Except.ok ⟨true⟩) 3).2 (Build.mk 7 3) (by decide)).2.2
      ⟨true⟩ rfl)⟩

/-- **C9** In `triggerTravisForPullRequest` the error of the
`travis.builds` listing call is never inspected: `response.builds` is
read unconditionally, so an absent response ends in the `crash` outcome
— the failure is never delivered through the completion callback. -/
theorem triggerTravis_listing_error_unchecked
    (restart : Nat → Except Err RestartResp) (n : Nat) :
    triggerTravisForPullRequest none restart n = TravisOutcome.crash
  ∧ TravisOutcome.isCallbackDelivered
      (triggerTravisForPullRequest none restart n) = false :=
  ⟨rfl, rfl⟩

/-! ## Issue-comment handler -/

/-- **C7** An issue-comment payload whose issue carries no pull-request
association completes with a no-op success: the callback is invoked
with no error and no remote call is issued. -/
theorem issueCommentHandler_plain_issue_noop (payload : CommentPayload)
    (commitResp : Except Err CommitInfo) (validationResult : Except Err Unit)
    (h : payload.issue.pull_request = none) :
    issueCommentHandler payload commitResp validationResult
      = (HandlerOutcome.done (Except.ok ()), ([] : List RemoteCall)) := by
  rcases payload with ⟨⟨num, prq⟩⟩
  have h' : prq = none := h
  subst h'
  rfl

/-- Witness for `issueCommentHandler_plain_issue_noop` on a comment on
plain issue number 5. -/
theorem issueCommentHandler_plain_issue_noop_witness :
    (CommentPayload.mk ⟨5, none⟩).issue.pull_request = none
  ∧ issueCommentHandler (CommentPayload.mk ⟨5, none⟩)
      (Except.ok ⟨"sha", "login"⟩) (Except.ok ())
      = (HandlerOutcome.done (Except.ok ()), ([] : List RemoteCall)) :=
  ⟨rfl, issueCommentHandler_plain_issue_noop (CommentPayload.mk ⟨5, none⟩)
    (Except.ok ⟨"sha", "login"⟩) (Except.ok ()) rfl⟩

/-! ## Webhook reconciliation lemmas -/

theorem scanHooks_fst (url : String) (events : List String)
    (hooks : List Hook) :
    (scanHooks url events hooks).1
      = hooks.any
          (fun h => h.configUrl == some url && arraysMatch h.events events) := by
  induction hooks with
  | nil => rfl
  | cons h hs ih =>
    cases hc : (h.configUrl == some url) <;>
      cases ha : arraysMatch h.events events <;>
        simp [scanHooks, hc, ha, ih]

theorem scanHooks_snd (url : String) (events : List String)
    (hooks : List Hook) :
    (scanHooks url events hooks).2
      = (hooks.filter
          (fun h => h.configUrl == some url
            && !arraysMatch h.events events)).map Hook.id := by
  induction hooks with
  | nil => rfl
  | cons h hs ih =>
    cases hc : (h.configUrl == some url) <;>
      cases ha : arraysMatch h.events events <;>
        simp [scanHooks, hc, ha, ih, List.filter_cons]

/-- With provider-assigned (duplicate-free) webhook ids, a hook's id is
queued for deletion exactly when that hook is URL-matching and stale. -/
theorem contains_scanHooks_snd (url : String) (events : List String)
    {hooks : List Hook} (hid : (hooks.map Hook.id).Nodup) {h : Hook}
    (hm : h ∈ hooks) :
    (scanHooks url events hooks).2.contains h.id
      = (h.configUrl == some url && !arraysMatch h.events events) := by
  rw [scanHooks_snd]
  cases hst : (h.configUrl == some url && !arraysMatch h.events events) with
  | true =>
    have hmem : h.id ∈ (hooks.filter
        (fun g => g.configUrl == some url
          && !arraysMatch g.events events)).map Hook.id :=
      List.mem_map_of_mem Hook.id (List.mem_filter.2 ⟨hm, hst⟩)
    simp [hmem]
  | false =>
    cases hcon : (hooks.filter
        (fun g => g.configUrl == some url
          && !arraysMatch g.events events)).map Hook.id |>.contains h.id with
    | false => rfl
    | true =>
      exfalso
      have hinj := (List.nodup_map_iff_inj_on (List.Nodup.of_map Hook.id hid)).1 hid
      have hmem : h.id ∈ (hooks.filter
          (fun g => g.configUrl == some url
            && !arraysMatch g.events events)).map Hook.id := by
        simpa using hcon
      rcases List.mem_map.1 hmem with ⟨g, hgf, hgid⟩
      rcases List.mem_filter.1 hgf with ⟨hg, hgp⟩
      have hgh : g = h := hinj g hg h hm hgid
      rw [hgh] at hgp
      simp [hgp] at hst

/-- A successful reconciliation run (no injected failures), for a state
with provider-assigned (duplicate-free) hook ids: stale URL-matching
hooks are removed, and a hook is created iff none matched. -/
theorem confirmWebhookExists_run_ok (url : String) (events : List String)
    (s : ProviderState) (hid : (s.hooks.map Hook.id).Nodup) :
    confirmWebhookExists false (fun _ => false) false url events s
      = if s.hooks.any
            (fun h => h.configUrl == some url && arraysMatch h.events events)
        then
          (Except.ok (), ⟨s.hooks.filter
            (fun h => !(h.configUrl == some url
              && !arraysMatch h.events events)), s.nextId⟩)
        else
          (Except.ok (), ⟨s.hooks.filter
            (fun h => !(h.configUrl == some url
              && !arraysMatch h.events events))
            ++ [⟨s.nextId, some url, events⟩], s.nextId + 1⟩) := by
  have hrem : s.hooks.filter
      (fun h => !((scanHooks url events s.hooks).2.contains h.id))
      = s.hooks.filter
        (fun h => !(h.configUrl == some url
          && !arraysMatch h.events events)) :=
    List.filter_congr
      (fun h hm => by rw [contains_scanHooks_snd url events hid hm])
  have hany : ((scanHooks url events s.hooks).2.any (fun _ => false)) = false := by
    simp
  rw [confirmWebhookExists, if_neg Bool.false_ne_true]
  simp only [hany, Bool.false_eq_true, if_false, hrem, scanHooks_fst]

/-- A state in which some URL-matching hook has the wanted events and no
URL-matching hook is stale is a fixed point of the reconciliation. -/
theorem confirmWebhookExists_stable (url : String) (events : List String)
    (s : ProviderState)
    (hstale : s.hooks.filter
      (fun h => h.configUrl == some url
        && !arraysMatch h.events events) = [])
    (hfound : s.hooks.any
      (fun h => h.configUrl == some url
        && arraysMatch h.events events) = true) :
    confirmWebhookExists false (fun _ => false) false url events s
      = (Except.ok (), s) := by
  have hsnd : (scanHooks url events s.hooks).2 = [] := by
    rw [scanHooks_snd, hstale]; rfl
  rw [confirmWebhookExists, if_neg Bool.false_ne_true]
  simp only [hsnd, scanHooks_fst, hfound, List.any_nil, Bool.false_eq_true,
    if_false, if_true, List.contains_nil, Bool.not_false, List.filter_true]

/-- **C3** If the deletion of any stale URL-matching webhook fails, the
whole reconciliation fails: the deletion error is reported through the
callback, the next provider id is untouched and every webhook of the
resulting state already existed — no creation is performed. -/
theorem confirmWebhookExists_deletion_failure_aborts
    (delFails : Nat → Bool) (createErr : Bool) (url : String)
    (events : List String) (st : ProviderState)
    (hfail : (scanHooks url events st.hooks).2.any delFails = true) :
    (confirmWebhookExists false delFails createErr url events st).1
      = Except.error "deleteHook failed"
  ∧ (confirmWebhookExists false delFails createErr url events st).2.nextId
      = st.nextId
  ∧ ∀ h ∈ (confirmWebhookExists false delFails createErr url events st).2.hooks,
      h ∈ st.hooks := by
  rw [confirmWebhookExists, if_neg Bool.false_ne_true]
  simp only [hfail, if_true]
  refine ⟨trivial, trivial, fun h hmem => ?_⟩
  exact (List.mem_filter.1 hmem).1

/-- Witness for `confirmWebhookExists_deletion_failure_aborts`: one
stale hook for the URL whose deletion fails. -/
theorem confirmWebhookExists_deletion_failure_aborts_witness :
    (scanHooks "u" ["e"] [⟨1, some "u", ["x"]⟩]).2.any (fun _ => true) = true
  ∧ ((confirmWebhookExists false (fun _ => true) false "u" ["e"]
        ⟨[⟨1, some "u", ["x"]⟩], 5⟩).1 = Except.error "deleteHook failed"
    ∧ (confirmWebhookExists false (fun _ => true) false "u" ["e"]
        ⟨[⟨1, some "u", ["x"]⟩], 5⟩).2.nextId = 5
    ∧ ∀ h ∈ (confirmWebhookExists false (fun _ => true) false "u" ["e"]
        ⟨[⟨1, some "u", ["x"]⟩], 5⟩).2.hooks,
        h ∈ [(⟨1, some "u", ["x"]⟩ : Hook)]) :=
  ⟨by decide,
   confirmWebhookExists_deletion_failure_aborts (fun _ => true) false "u"
     ["e"] ⟨[⟨1, some "u", ["x"]⟩], 5⟩ (by decide)⟩

/-- **C1 (counterexample)** The claim fails as stated, at two concrete
inputs. (i) A state holding two webhooks for URL `u`, both already
subscribed to the wanted events: the run succeeds and leaves both, so
two webhooks with that URL exist. (ii) With the duplicated event list
`["e", "e"]` a second identical run is not a no-op: it deletes the hook
the first run created and creates a fresh one (ids 0 and 1 differ). -/
theorem confirmWebhookExists_exactly_one_cex :
    (confirmWebhookExists false (fun _ => false) false "u" ["e"]
        ⟨[⟨1, some "u", ["e"]⟩, ⟨2, some "u", ["e"]⟩], 3⟩).1 = Except.ok ()
  ∧ countUrl "u" (confirmWebhookExists false (fun _ => false) false "u" ["e"]
        ⟨[⟨1, some "u", ["e"]⟩, ⟨2, some "u", ["e"]⟩], 3⟩).2 = 2
  ∧ confirmWebhookExists false (fun _ => false) false "u" ["e", "e"] ⟨[], 0⟩
      = (Except.ok (), ⟨[⟨0, some "u", ["e", "e"]⟩], 1⟩)
  ∧ confirmWebhookExists false (fun _ => false) false "u" ["e", "e"]
        ⟨[⟨0, some "u", ["e", "e"]⟩], 1⟩
      = (Except.ok (), ⟨[⟨1, some "u", ["e", "e"]⟩], 2⟩)
  ∧ (⟨[⟨1, some "u", ["e", "e"]⟩], 2⟩ : ProviderState)
      ≠ ⟨[⟨0, some "u", ["e", "e"]⟩], 1⟩ := by
  decide

/-- **C1 (amended)** For every webhook state whose hook ids are pairwise
distinct (they are provider-assigned identifiers), in which at most one
URL-matching webhook already carries the wanted event set, and for a
duplicate-free event list: a run of `confirmWebhookExists` with no
transport failure succeeds, afterwards exactly one webhook with URL
`url` exists and its event set equals `events`, and an immediate second
run with the same arguments succeeds and changes nothing. -/
theorem confirmWebhookExists_reconciles_idempotent (url : String)
    (events : List String) (st : ProviderState)
    (hid : (st.hooks.map Hook.id).Nodup) (hnd : events.Nodup)
    (huniq : (st.hooks.filter
      (fun h => h.configUrl == some url
        && arraysMatch h.events events)).length ≤ 1) :
    (confirmWebhookExists false (fun _ => false) false url events st).1
      = Except.ok ()
  ∧ countUrl url
      (confirmWebhookExists false (fun _ => false) false url events st).2 = 1
  ∧ (∀ h ∈ (confirmWebhookExists false (fun _ => false) false
        url events st).2.hooks,
      h.configUrl = some url → h.events.toFinset = events.toFinset)
  ∧ confirmWebhookExists false (fun _ => false) false url events
      (confirmWebhookExists false (fun _ => false) false url events st).2
    = (Except.ok (),
       (confirmWebhookExists false (fun _ => false) false url events st).2) := by
  have hrun := confirmWebhookExists_run_ok url events st hid
  by_cases hfound : st.hooks.any
      (fun h => h.configUrl == some url && arraysMatch h.events events) = true
  · -- some URL-matching hook already has the wanted events
    rw [if_pos hfound] at hrun
    rcases List.any_eq_true.1 hfound with ⟨h0, hm0, hp0⟩
    have hp0' := hp0
    rw [Bool.and_eq_true] at hp0'
    obtain ⟨hc0, ha0⟩ := hp0'
    have hstale0 :
        (h0.configUrl == some url && !arraysMatch h0.events events) = false := by
      simp [hc0, ha0]
    rw [hrun]
    have hRf : (st.hooks.filter
          (fun h => !(h.configUrl == some url
            && !arraysMatch h.events events))).filter
          (fun h => h.configUrl == some url)
        = st.hooks.filter
          (fun h => h.configUrl == some url
            && arraysMatch h.events events) := by
      rw [List.filter_filter]
      exact List.filter_congr (fun h _ => by
        cases hc : (h.configUrl == some url) <;>
          cases ha : arraysMatch h.events events <;> simp [hc, ha])
    refine ⟨rfl, ?_, ?_, ?_⟩
    · show ((st.hooks.filter
          (fun h => !(h.configUrl == some url
            && !arraysMatch h.events events))).filter
          (fun h => h.configUrl == some url)).length = 1
      rw [hRf]
      have hpos : 0 < (st.hooks.filter
          (fun h => h.configUrl == some url
            && arraysMatch h.events events)).length :=
        List.length_pos_of_mem (List.mem_filter.2 ⟨hm0, hp0⟩)
      omega
    · intro h hmem hurl
      rcases List.mem_filter.1 hmem with ⟨hmSt, hnot⟩
      have hbeq : (h.configUrl == some url) = true := by simp [hurl]
      have ha : arraysMatch h.events events = true := by
        simpa [hbeq] using hnot
      exact (arraysMatch_true_iff.1 ha).2.2
    · refine confirmWebhookExists_stable url events _ ?_ ?_
      · refine List.filter_eq_nil_iff.2 (fun h hmem => ?_)
        rcases List.mem_filter.1 hmem with ⟨-, hnot⟩
        rw [Bool.not_eq_true'] at hnot
        simp [hnot]
      · refine List.any_eq_true.2 ⟨h0, List.mem_filter.2 ⟨hm0, ?_⟩, hp0⟩
        simp [hstale0]
  · -- no URL-matching hook has the wanted events: one is created
    rw [if_neg hfound] at hrun
    have hany : st.hooks.any
        (fun h => h.configUrl == some url
          && arraysMatch h.events events) = false :=
      Bool.eq_false_iff.2 hfound
    have hall : ∀ h ∈ st.hooks,
        (h.configUrl == some url && arraysMatch h.events events) = false :=
      fun h hm => by simpa using List.any_eq_false.1 hany h hm
    have hmatchNew :
        ((⟨st.nextId, some url, events⟩ : Hook).configUrl == some url
          && arraysMatch (⟨st.nextId, some url, events⟩ : Hook).events events)
        = true := by
      rw [Bool.and_eq_true]
      exact ⟨by simp, arraysMatch_true_iff.2 ⟨hnd, hnd, rfl⟩⟩
    have hnoR : ∀ h ∈ st.hooks.filter
        (fun h => !(h.configUrl == some url
          && !arraysMatch h.events events)),
        (h.configUrl == some url) = false := by
      intro h hmem
      rcases List.mem_filter.1 hmem with ⟨hm, hnot⟩
      cases hc : (h.configUrl == some url) with
      | false => rfl
      | true =>
        exfalso
        have ha : arraysMatch h.events events = true := by
          simpa [hc] using hnot
        have := hall h hm
        simp [hc, ha] at this
    rw [hrun]
    refine ⟨rfl, ?_, ?_, ?_⟩
    · show (((st.hooks.filter
          (fun h => !(h.configUrl == some url
            && !arraysMatch h.events events)))
          ++ [(⟨st.nextId, some url, events⟩ : Hook)]).filter
          (fun h => h.configUrl == some url)).length = 1
      rw [List.filter_append]
      rw [List.filter_eq_nil_iff.2 (fun h hm => by simp [hnoR h hm])]
      simp
    · intro h hmem hurl
      rcases List.mem_append.1 hmem with hmem | hmem
      · exfalso
        have := hnoR h hmem
        simp [hurl] at this
      · rcases List.mem_singleton.1 hmem with rfl
        rfl
    · refine confirmWebhookExists_stable url events _ ?_ ?_
      · rw [List.filter_append]
        rw [List.filter_eq_nil_iff.2 (fun h hm => by simp [hnoR h hm])]
        refine List.filter_eq_nil_iff.2 (fun h hm => ?_)
        rcases List.mem_singleton.1 hm with rfl
        have haNew : arraysMatch events events = true :=
          arraysMatch_true_iff.2 ⟨hnd, hnd, rfl⟩
        simp [haNew]
      · exact List.any_eq_true.2
          ⟨⟨st.nextId, some url, events⟩,
           List.mem_append_right _ (List.mem_singleton.2 rfl), hmatchNew⟩

/-- Witness for `confirmWebhookExists_reconciles_idempotent`: a state
with one stale hook for the URL, duplicate-free ids and events. -/
theorem confirmWebhookExists_reconciles_idempotent_witness :
    (([⟨7, some "u", ["x"]⟩] : List Hook).map Hook.id).Nodup
  ∧ (["push"] : List String).Nodup
  ∧ (([⟨7, some "u", ["x"]⟩] : List Hook).filter
      (fun h => h.configUrl == some "u"
        && arraysMatch h.events ["push"])).length ≤ 1
  ∧ ((confirmWebhookExists false (fun _ => false) false "u" ["push"]
        ⟨[⟨7, some "u", ["x"]⟩], 9⟩).1 = Except.ok ()
    ∧ countUrl "u" (confirmWebhookExists false (fun _ => false) false "u"
        ["push"] ⟨[⟨7, some "u", ["x"]⟩], 9⟩).2 = 1
    ∧ (∀ h ∈ (confirmWebhookExists false (fun _ => false) false "u"
          ["push"] ⟨[⟨7, some "u", ["x"]⟩], 9⟩).2.hooks,
        h.configUrl = some "u" → h.events.toFinset = (["push"] : List String).toFinset)
    ∧ confirmWebhookExists false (fun _ => false) false "u" ["push"]
        (confirmWebhookExists false (fun _ => false) false "u" ["push"]
          ⟨[⟨7, some "u", ["x"]⟩], 9⟩).2
      = (Except.ok (),
         (confirmWebhookExists false (fun _ => false) false "u" ["push"]
           ⟨[⟨7, some "u", ["x"]⟩], 9⟩).2)) :=
  ⟨by decide, by decide, by decide,
   confirmWebhookExists_reconciles_idempotent "u" ["push"]
     ⟨[⟨7, some "u", ["x"]⟩], 9⟩ (by decide) (by decide) (by decide)⟩

/-! ## `arraysMatch` claim -/

/-- **C10** The event-set comparison `arraysMatch` is symmetric and
order-insensitive; on duplicate-free arrays it is exactly set equality;
and on any array containing a repeated element it is not even
reflexive, since it compares the count of distinct shared values with
each array's length. -/
theorem arraysMatch_algebraic_spec :
    (∀ l r : List String, arraysMatch l r = arraysMatch r l)
  ∧ (∀ l l' r : List String, l.Perm l' →
      arraysMatch l r = arraysMatch l' r)
  ∧ (∀ l r : List String, l.Nodup → r.Nodup →
      (arraysMatch l r = true ↔ l.toFinset = r.toFinset))
  ∧ (∀ xs : List String, ¬xs.Nodup → arraysMatch xs xs = false) :=
  ⟨fun l r => arraysMatch_comm l r,
   fun _ _ r hp => arraysMatch_perm_left r hp,
   fun _ _ hnl hnr =>
     ⟨fun h => (arraysMatch_true_iff.1 h).2.2,
      fun h => arraysMatch_true_iff.2 ⟨hnl, hnr, h⟩⟩,
   fun _ hnd => arraysMatch_self_eq_false_of_dup hnd⟩

/-- Witness for `arraysMatch_algebraic_spec` at concrete lists: the
duplicate-free equivalence at `["a", "b"]` / `["b", "a"]`, and the
reflexivity failure at `["a", "a"]`. -/
theorem arraysMatch_algebraic_spec_witness :
    (["a", "b"] : List String).Nodup
  ∧ (["b", "a"] : List String).Nodup
  ∧ (arraysMatch (["a", "b"] : List String) ["b", "a"] = true
      ↔ (["a", "b"] : List String).toFinset = (["b", "a"] : List String).toFinset)
  ∧ ¬(["a", "a"] : List String).Nodup
  ∧ arraysMatch (["a", "a"] : List String) ["a", "a"] = false :=
  ⟨by decide, by decide,
   arraysMatch_algebraic_spec.2.2.1 ["a", "b"] ["b", "a"]
     (by decide) (by decide),
   by decide,
   arraysMatch_algebraic_spec.2.2.2 ["a", "a"] (by decide)⟩

end NupicTools
